import Mathlib

/-!
Verification of the generation-resilience and pending-post layers of the
utro repository against its specification.

The resilience primitives are embedded from services/api_safety.py, the
splitter and pending-post lifecycle from services/post_service.py, and the
regenerate handlers from handlers/callbacks.py.  Wall-clock instants are
modelled as rationals; Python truthiness of optional floats and of optional
integers (None and 0 are falsy) is modelled explicitly where the source
relies on it.
-/

namespace Utro

set_option maxRecDepth 100000

/-! ### Circuit breaker (services/api_safety.py, class CircuitBreaker) -/

/-- State of one CircuitBreaker instance: threshold and timeout are the
constructor arguments, the remaining fields are the mutable attributes. -/
structure CircuitBreaker where
  threshold : Nat
  timeout : ℚ
  failure_count : Nat
  last_failure_time : Option ℚ
  is_open : Bool
deriving Repr, DecidableEq

/-- CircuitBreaker.__init__: failure_count 0, last_failure_time None, closed. -/
def initBreaker (threshold : Nat) (timeout : ℚ) : CircuitBreaker :=
  { threshold := threshold, timeout := timeout, failure_count := 0,
    last_failure_time := none, is_open := false }

/-- CircuitBreaker.record_failure at wall-clock instant now: increment the
counter, stamp the failure time, open the circuit once the counter reaches
the threshold. -/
def record_failure (now : ℚ) (cb : CircuitBreaker) : CircuitBreaker :=
  let fc := cb.failure_count + 1
  { cb with
    failure_count := fc
    last_failure_time := some now
    is_open := if cb.threshold ≤ fc then true else cb.is_open }

/-- CircuitBreaker.record_success: reset the counter and close the circuit. -/
def record_success (cb : CircuitBreaker) : CircuitBreaker :=
  { cb with failure_count := 0, is_open := false }

/-- CircuitBreaker.can_execute at instant now.  Returns the decision and the
updated state (the method mutates self when the cooldown has elapsed).  The
source guards the elapsed-time check with Python truthiness of
last_failure_time, so both None and 0.0 skip it. -/
def can_execute (now : ℚ) (cb : CircuitBreaker) : Bool × CircuitBreaker :=
  if cb.is_open = false then (true, cb)
  else
    match cb.last_failure_time with
    | some t =>
      if t ≠ 0 ∧ cb.timeout ≤ now - t then
        (true, { cb with is_open := false, failure_count := 0 })
      else (false, cb)
    | none => (false, cb)

/-- CircuitBreaker.get_retry_after at instant now (read-only). -/
def get_retry_after (now : ℚ) (cb : CircuitBreaker) : ℚ :=
  if cb.is_open = false then 0
  else
    match cb.last_failure_time with
    | some t => if t ≠ 0 then max 0 (cb.timeout - (now - t)) else 0
    | none => 0

/-! ### Request counter (services/api_safety.py, class RequestCounter) -/

/-- Sliding-window timestamp lists: per-user lists keyed by user id
(defaultdict, missing key is the empty list) and the global list. -/
structure RequestCounter where
  user_requests : Nat → List ℚ
  global_requests : List ℚ

/-- RequestCounter.__init__. -/
def initCounter : RequestCounter :=
  { user_requests := fun _ => [], global_requests := [] }

/-- RequestCounter.add_request: append now to the global list and, when the
user id is truthy (not None and not 0), to that user's list. -/
def add_request (now : ℚ) (uid : Option Nat) (c : RequestCounter) : RequestCounter :=
  { global_requests := c.global_requests ++ [now]
    user_requests :=
      match uid with
      | some u =>
        if u ≠ 0 then Function.update c.user_requests u (c.user_requests u ++ [now])
        else c.user_requests
      | none => c.user_requests }

/-- RequestCounter.get_user_count_last_hour: purge entries at or before
now - 3600 from that user's list, store the purged list back, return its
length together with the updated counter. -/
def get_user_count_last_hour (now : ℚ) (u : Nat) (c : RequestCounter) :
    Nat × RequestCounter :=
  let l := (c.user_requests u).filter (fun t => now - 3600 < t)
  (l.length, { c with user_requests := Function.update c.user_requests u l })

/-- RequestCounter.get_global_count_last_minute: purge entries at or before
now - 60, store the purged list back, return its length. -/
def get_global_count_last_minute (now : ℚ) (c : RequestCounter) :
    Nat × RequestCounter :=
  let l := c.global_requests.filter (fun t => now - 60 < t)
  (l.length, { c with global_requests := l })

/-! ### Rate limiter (services/api_safety.py, classes RateLimitConfig and
APIRateLimiter) -/

/-- RateLimitConfig with the source's default values. -/
structure RateLimitConfig where
  max_per_user_per_hour : Nat := 50
  max_global_per_minute : Nat := 20
  timeout_seconds : ℚ := 30
  max_retries : Nat := 3
  base_retry_delay : ℚ := 1
  circuit_breaker_threshold : Nat := 5
  circuit_breaker_timeout : ℚ := 300
deriving Repr, DecidableEq

/-- State of one APIRateLimiter: its config, its counter and its breaker. -/
structure APIRateLimiter where
  config : RateLimitConfig
  counter : RequestCounter
  circuit_breaker : CircuitBreaker

/-- APIRateLimiter.__init__. -/
def initLimiter (cfg : RateLimitConfig) : APIRateLimiter :=
  { config := cfg, counter := initCounter,
    circuit_breaker := initBreaker cfg.circuit_breaker_threshold cfg.circuit_breaker_timeout }

/-- Reason carried by a denied admission; circuitOpen carries the
retry_after value computed from get_retry_after. -/
inductive DenyReason
  | circuitOpen (retry_after : ℚ)
  | globalLimit
  | userLimit
deriving Repr, DecidableEq

/-- Result of APIRateLimiter.check_limits. -/
inductive CheckResult
  | allowed
  | denied (r : DenyReason)
deriving Repr, DecidableEq

/-- APIRateLimiter.check_limits at instant now: breaker first (denial with
the retry-after message), then the global per-minute window, then, when the
user id is truthy, the per-user hourly window.  The updated breaker and
counter are threaded through exactly as the methods mutate them. -/
def check_limits (now : ℚ) (uid : Option Nat) (st : APIRateLimiter) :
    CheckResult × APIRateLimiter :=
  let p := can_execute now st.circuit_breaker
  if p.1 = false then
    (.denied (.circuitOpen (get_retry_after now p.2)), { st with circuit_breaker := p.2 })
  else
    let g := get_global_count_last_minute now st.counter
    if st.config.max_global_per_minute ≤ g.1 then
      (.denied .globalLimit, { st with circuit_breaker := p.2, counter := g.2 })
    else
      match uid with
      | some u =>
        if u ≠ 0 then
          let uc := get_user_count_last_hour now u g.2
          if st.config.max_per_user_per_hour ≤ uc.1 then
            (.denied .userLimit, { st with circuit_breaker := p.2, counter := uc.2 })
          else (.allowed, { st with circuit_breaker := p.2, counter := uc.2 })
        else (.allowed, { st with circuit_breaker := p.2, counter := g.2 })
      | none => (.allowed, { st with circuit_breaker := p.2, counter := g.2 })

/-- APIRateLimiter.record_request: add_request on the counter followed by
record_success on the breaker. -/
def limiter_record_request (now : ℚ) (uid : Option Nat) (st : APIRateLimiter) :
    APIRateLimiter :=
  { st with counter := add_request now uid st.counter,
            circuit_breaker := record_success st.circuit_breaker }

/-- APIRateLimiter.record_failure: record_failure on the breaker only. -/
def limiter_record_failure (now : ℚ) (st : APIRateLimiter) : APIRateLimiter :=
  { st with circuit_breaker := record_failure now st.circuit_breaker }

/-- Fold a sequence of record_failure calls (one per timestamp) over a
limiter state. -/
def afterFailures (ts : List ℚ) (st : APIRateLimiter) : APIRateLimiter :=
  ts.foldl (fun s t => limiter_record_failure t s) st

/-! ### Claim C7: reachable breaker states -/

/-- One public operation on a CircuitBreaker, tagged with the wall-clock
instant at which it runs. -/
inductive BreakerOp
  | fail (t : ℚ)
  | success
  | canExec (t : ℚ)
  | retryAfter (t : ℚ)

/-- Effect of one operation on the breaker state; get_retry_after reads the
state without mutating it, so its effect on the state is the identity. -/
def applyBreakerOp (op : BreakerOp) (cb : CircuitBreaker) : CircuitBreaker :=
  match op with
  | .fail t => record_failure t cb
  | .success => record_success cb
  | .canExec t => (can_execute t cb).2
  | .retryAfter _ => cb

/-- Run a sequence of breaker operations from a given state. -/
def runBreakerOps (ops : List BreakerOp) (cb : CircuitBreaker) : CircuitBreaker :=
  ops.foldl (fun s o => applyBreakerOp o s) cb

/-- The breaker invariant of the data model: an open circuit has at least
threshold consecutive failures recorded. -/
def BreakerInv (cb : CircuitBreaker) : Prop :=
  cb.is_open = true → cb.threshold ≤ cb.failure_count

theorem breakerInv_record_failure (now : ℚ) (cb : CircuitBreaker)
    (h : BreakerInv cb) : BreakerInv (record_failure now cb) := by
  intro ho
  unfold record_failure at ho ⊢
  simp only at ho ⊢
  split at ho
  · omega
  · exact Nat.le_succ_of_le (h ho)

theorem breakerInv_record_success (cb : CircuitBreaker) :
    BreakerInv (record_success cb) := by
  intro ho
  simp [record_success] at ho

theorem breakerInv_can_execute (now : ℚ) (cb : CircuitBreaker)
    (h : BreakerInv cb) : BreakerInv (can_execute now cb).2 := by
  unfold BreakerInv can_execute
  split
  · exact h
  · split
    · split
      · intro ho; simp at ho
      · exact h
    · exact h

theorem breakerInv_step (op : BreakerOp) (cb : CircuitBreaker)
    (h : BreakerInv cb) : BreakerInv (applyBreakerOp op cb) := by
  cases op with
  | fail t => exact breakerInv_record_failure t cb h
  | success => exact breakerInv_record_success cb
  | canExec t => exact breakerInv_can_execute t cb h
  | retryAfter t => exact h

theorem applyBreakerOp_threshold (op : BreakerOp) (cb : CircuitBreaker) :
    (applyBreakerOp op cb).threshold = cb.threshold := by
  cases op with
  | fail t => rfl
  | success => rfl
  | canExec t =>
    show (can_execute t cb).2.threshold = cb.threshold
    unfold can_execute
    split
    · rfl
    · split
      · split <;> rfl
      · rfl
  | retryAfter t => rfl

theorem runBreakerOps_threshold (ops : List BreakerOp) (cb : CircuitBreaker) :
    (runBreakerOps ops cb).threshold = cb.threshold := by
  induction ops generalizing cb with
  | nil => rfl
  | cons o rest ih =>
    show (runBreakerOps rest (applyBreakerOp o cb)).threshold = cb.threshold
    rw [ih (applyBreakerOp o cb), applyBreakerOp_threshold]

/-- C7.  Every state reachable from a freshly constructed breaker by any
sequence of record_failure, record_success, can_execute and get_retry_after
operations satisfies: is_open implies failure_count at or above threshold. -/
theorem breaker_invariant_reachable (ops : List BreakerOp) (th : Nat) (tmo : ℚ)
    (hopen : (runBreakerOps ops (initBreaker th tmo)).is_open = true) :
    th ≤ (runBreakerOps ops (initBreaker th tmo)).failure_count := by
  have key : ∀ (l : List BreakerOp) (cb : CircuitBreaker), BreakerInv cb →
      BreakerInv (runBreakerOps l cb) := by
    intro l
    induction l with
    | nil => intro cb h; exact h
    | cons o rest ih =>
      intro cb h
      exact ih (applyBreakerOp o cb) (breakerInv_step o cb h)
  have h0 : BreakerInv (initBreaker th tmo) := by
    intro ho; simp [initBreaker] at ho
  have := key ops (initBreaker th tmo) h0 hopen
  rwa [runBreakerOps_threshold, initBreaker] at this

/-- Witness for C7: a breaker with threshold 1 opened by one failure. -/
theorem breaker_invariant_reachable_witness :
    (runBreakerOps [BreakerOp.fail 1] (initBreaker 1 300)).is_open = true ∧
    1 ≤ (runBreakerOps [BreakerOp.fail 1] (initBreaker 1 300)).failure_count :=
  ⟨by decide, breaker_invariant_reachable [BreakerOp.fail 1] 1 300 (by decide)⟩

/-! ### Evaluation lemmas for can_execute and check_limits -/

theorem can_execute_closed (now : ℚ) (cb : CircuitBreaker)
    (h : cb.is_open = false) : can_execute now cb = (true, cb) := by
  simp [can_execute, h]

theorem can_execute_open_stale (now : ℚ) (cb : CircuitBreaker) (t : ℚ)
    (ho : cb.is_open = true) (hl : cb.last_failure_time = some t)
    (hcond : ¬(t ≠ 0 ∧ cb.timeout ≤ now - t)) :
    can_execute now cb = (false, cb) := by
  simp only [can_execute, ho, hl]
  simp [hcond]

theorem can_execute_open_elapsed (now : ℚ) (cb : CircuitBreaker) (t : ℚ)
    (ho : cb.is_open = true) (hl : cb.last_failure_time = some t)
    (hcond : t ≠ 0 ∧ cb.timeout ≤ now - t) :
    can_execute now cb = (true, { cb with is_open := false, failure_count := 0 }) := by
  simp only [can_execute, ho, hl]
  simp [hcond]

theorem check_limits_denied (now : ℚ) (uid : Option Nat) (st : APIRateLimiter)
    (b' : CircuitBreaker)
    (hcan : can_execute now st.circuit_breaker = (false, b')) :
    check_limits now uid st =
      (.denied (.circuitOpen (get_retry_after now b')), { st with circuit_breaker := b' }) := by
  simp [check_limits, hcan]

theorem check_limits_none_emptyCounter (now : ℚ) (st : APIRateLimiter)
    (hc : st.counter = initCounter) (hmax : 0 < st.config.max_global_per_minute)
    (b' : CircuitBreaker)
    (hcan : can_execute now st.circuit_breaker = (true, b')) :
    check_limits now none st =
      (.allowed, { st with circuit_breaker := b', counter := initCounter }) := by
  simp [check_limits, hcan, hc, initCounter, get_global_count_last_minute,
    Nat.le_zero, hmax.ne']

/-! ### Claim C1: breaker threshold and cooldown through check_limits -/

/-- C1.  From a fresh limiter with the default config, four consecutive
record_failure calls leave admission allowed; after exactly five (the
default threshold) check_limits denies with the circuit-open reason and the
computed retry-after; and once 300 seconds (the default cooldown) have
elapsed since the last failure, the very next check_limits returns allowed
and resets the consecutive-failure count to 0. -/
theorem breaker_threshold_and_cooldown (t1 t2 t3 t4 t5 now now' : ℚ)
    (h0 : t5 ≠ 0) (hlt : now - t5 < 300) (hge : 300 ≤ now' - t5) :
    (check_limits now none (afterFailures [t1, t2, t3, t4] (initLimiter {}))).1
      = .allowed
    ∧ (check_limits now none (afterFailures [t1, t2, t3, t4, t5] (initLimiter {}))).1
      = .denied (.circuitOpen (max 0 (300 - (now - t5))))
    ∧ (check_limits now' none (afterFailures [t1, t2, t3, t4, t5] (initLimiter {}))).1
      = .allowed
    ∧ (check_limits now' none
        (afterFailures [t1, t2, t3, t4, t5] (initLimiter {}))).2.circuit_breaker.failure_count
      = 0 := by
  have hst5 : afterFailures [t1, t2, t3, t4, t5] (initLimiter {}) =
      { config := {}, counter := initCounter,
        circuit_breaker :=
          { threshold := 5, timeout := 300, failure_count := 5,
            last_failure_time := some t5, is_open := true } } := rfl
  refine ⟨rfl, ?_, ?_, ?_⟩
  · rw [hst5, check_limits_denied now none _ _
      (can_execute_open_stale now _ t5 rfl rfl
        (fun hc => absurd hc.2 (not_le.mpr hlt)))]
    simp [get_retry_after, h0]
  · rw [hst5, check_limits_none_emptyCounter now' _ rfl (show (0:Nat) < 20 by decide) _
      (can_execute_open_elapsed now' _ t5 rfl rfl ⟨h0, hge⟩)]
  · rw [hst5, check_limits_none_emptyCounter now' _ rfl (show (0:Nat) < 20 by decide) _
      (can_execute_open_elapsed now' _ t5 rfl rfl ⟨h0, hge⟩)]

/-- Witness for C1 at failure times 1..5, a denial check at instant 10 and a
cooldown check at instant 1000. -/
theorem breaker_threshold_and_cooldown_witness :
    (5 : ℚ) ≠ 0 ∧ (10 : ℚ) - 5 < 300 ∧ (300 : ℚ) ≤ 1000 - 5 ∧
    ((check_limits 10 none (afterFailures [1, 2, 3, 4] (initLimiter {}))).1
      = .allowed
    ∧ (check_limits 10 none (afterFailures [1, 2, 3, 4, 5] (initLimiter {}))).1
      = .denied (.circuitOpen (max 0 (300 - ((10 : ℚ) - 5))))
    ∧ (check_limits 1000 none (afterFailures [1, 2, 3, 4, 5] (initLimiter {}))).1
      = .allowed
    ∧ (check_limits 1000 none
        (afterFailures [1, 2, 3, 4, 5] (initLimiter {}))).2.circuit_breaker.failure_count
      = 0) :=
  ⟨by norm_num, by norm_num, by norm_num,
    breaker_threshold_and_cooldown 1 2 3 4 5 10 1000 (by norm_num) (by norm_num)
      (by norm_num)⟩

/-! ### Guarded calls (services/api_safety.py: with_rate_limit, with_timeout,
with_retry, safe_api_call)

safe_api_call composes the three decorators as
with_retry(with_timeout(with_rate_limit(func))): every retry attempt redoes
the admission check, the deadline covers admission plus the operation, and
the retry loop sits outermost. -/

/-- Behaviour of one invocation of the wrapped operation: return a value,
raise an exception, or hang past the deadline. -/
inductive OpOutcome (E T : Type)
  | ok (v : T)
  | raise (e : E)
  | hang
deriving Repr, DecidableEq

/-- Errors surfaced by the guard layer.  rateLimitExceeded models the
RateLimitExceeded exception (with_rate_limit raises it for every denial,
whatever the reason, carrying the check_limits message); circuitBreakerOpen
models the CircuitBreakerOpen class, which the source declares and lists in
the no-retry tuple but never raises; apiTimeout models APITimeoutError; exc
models any other exception propagated from the operation. -/
inductive GuardErr (E : Type)
  | rateLimitExceeded (r : DenyReason)
  | circuitBreakerOpen
  | apiTimeout
  | exc (e : E)
deriving Repr, DecidableEq

/-- One attempt of with_timeout(with_rate_limit(func)): run check_limits;
on denial raise RateLimitExceeded without touching the counters further; on
an admitted attempt that returns, record_request; on an admitted attempt
that raises, the except-Exception handler runs record_failure and
re-raises.  On an admitted attempt that hangs, asyncio.wait_for cancels the
inner coroutine with CancelledError, which on the Python versions this
source requires (it imports ParamSpec, so 3.10 or later) derives from
BaseException, not Exception: the handler in with_rate_limit does not run,
no failure is recorded, and with_timeout turns the TimeoutError into
APITimeoutError. -/
def guarded_attempt (now : ℚ) (uid : Option Nat) (out : OpOutcome E T)
    (st : APIRateLimiter) : Except (GuardErr E) T × APIRateLimiter :=
  let c := check_limits now uid st
  match c.1 with
  | .denied r => (.error (.rateLimitExceeded r), c.2)
  | .allowed =>
    match out with
    | .ok v => (.ok v, limiter_record_request now uid c.2)
    | .raise e => (.error (.exc e), limiter_record_failure now c.2)
    | .hang => (.error .apiTimeout, c.2)

/-- The tuple of exceptions with_retry re-raises without retrying. -/
def nonRetryable : GuardErr E → Bool
  | .rateLimitExceeded _ => true
  | .circuitBreakerOpen => true
  | .apiTimeout => true
  | .exc _ => false

/-- Observable trace of one safe_api_call run: the final result (error none
models the source raising a None last_exception when max_retries is 0), the
final limiter state, the back-off delays slept between attempts, and the
number of attempts made. -/
structure RetryTrace (E T : Type) where
  result : Except (Option (GuardErr E)) T
  state : APIRateLimiter
  delays : List ℚ
  calls : Nat

/-- The with_retry loop, attempts numbered from the given attempt index:
return on success; re-raise APITimeoutError, CircuitBreakerOpen and
RateLimitExceeded immediately; on any other exception remember it, sleep
base * 2 ^ (attempt - 1) and try again while attempts remain, else raise
the remembered exception. -/
def with_retry_go (op : Nat → OpOutcome E T) (times : Nat → ℚ) (uid : Option Nat)
    (base : ℚ) : Nat → Option (GuardErr E) → APIRateLimiter → Nat → RetryTrace E T
  | _, lastE, st, 0 => ⟨.error lastE, st, [], 0⟩
  | attempt, _, st, remaining + 1 =>
    let a := guarded_attempt (times attempt) uid (op attempt) st
    match a.1 with
    | .ok v => ⟨.ok v, a.2, [], 1⟩
    | .error e =>
      if nonRetryable e then ⟨.error (some e), a.2, [], 1⟩
      else if remaining = 0 then ⟨.error (some e), a.2, [], 1⟩
      else
        let rest := with_retry_go op times uid base (attempt + 1) (some e) a.2 remaining
        ⟨rest.result, rest.state, base * 2 ^ (attempt - 1) :: rest.delays, rest.calls + 1⟩

/-- safe_api_call: the composed guard, attempts numbered from 1, no
exception remembered yet.  base stays at the with_retry default of 1 in the
source (safe_api_call forwards only max_retries), but is kept general. -/
def safe_api_call (op : Nat → OpOutcome E T) (times : Nat → ℚ) (uid : Option Nat)
    (max_retries : Nat) (base : ℚ) (st : APIRateLimiter) : RetryTrace E T :=
  with_retry_go op times uid base 1 none st max_retries

/-! ### Structural lemmas about check_limits -/

theorem check_limits_breaker (now : ℚ) (uid : Option Nat) (st : APIRateLimiter) :
    (check_limits now uid st).2.circuit_breaker = (can_execute now st.circuit_breaker).2 := by
  unfold check_limits
  cases uid
  all_goals simp only
  all_goals repeat' split
  all_goals rfl

theorem check_limits_config (now : ℚ) (uid : Option Nat) (st : APIRateLimiter) :
    (check_limits now uid st).2.config = st.config := by
  unfold check_limits
  cases uid
  all_goals simp only
  all_goals repeat' split
  all_goals rfl

theorem check_limits_allowed_can (now : ℚ) (uid : Option Nat) (st : APIRateLimiter)
    (h : (check_limits now uid st).1 = .allowed) :
    (can_execute now st.circuit_breaker).1 = true := by
  by_contra hfalse
  have hf : (can_execute now st.circuit_breaker).1 = false := by
    cases hv : (can_execute now st.circuit_breaker).1
    · rfl
    · exact absurd hv hfalse
  unfold check_limits at h
  rw [if_pos hf] at h
  exact CheckResult.noConfusion h

theorem can_execute_cases (now : ℚ) (cb : CircuitBreaker) :
    (can_execute now cb = (true, cb) ∧ cb.is_open = false)
    ∨ can_execute now cb = (true, { cb with is_open := false, failure_count := 0 })
    ∨ can_execute now cb = (false, cb) := by
  unfold can_execute
  split
  · exact Or.inl ⟨rfl, by assumption⟩
  · split
    · split
      · exact Or.inr (Or.inl rfl)
      · exact Or.inr (Or.inr rfl)
    · exact Or.inr (Or.inr rfl)

theorem can_execute_true_closed (now : ℚ) (cb : CircuitBreaker)
    (h : (can_execute now cb).1 = true) : (can_execute now cb).2.is_open = false := by
  rcases can_execute_cases now cb with ⟨he, ho⟩ | he | he
  · rw [he]; exact ho
  · rw [he]
  · rw [he] at h; exact Bool.noConfusion h

theorem can_execute_fc_le (now : ℚ) (cb : CircuitBreaker) :
    (can_execute now cb).2.failure_count ≤ cb.failure_count := by
  rcases can_execute_cases now cb with ⟨he, _⟩ | he | he
  · rw [he]
  · rw [he]; exact Nat.zero_le _
  · rw [he]

theorem check_limits_counter_sub (now : ℚ) (uid : Option Nat) (st : APIRateLimiter) :
    (check_limits now uid st).2.counter.global_requests.Sublist
      st.counter.global_requests
    ∧ ∀ u, ((check_limits now uid st).2.counter.user_requests u).Sublist
        (st.counter.user_requests u) := by
  unfold check_limits get_global_count_last_minute get_user_count_last_hour
  cases uid
  all_goals simp only
  all_goals repeat' split
  all_goals refine ⟨?_, fun u => ?_⟩
  all_goals first
    | exact List.Sublist.refl _
    | exact List.filter_sublist _
    | (simp only [Function.update_apply]
       split
       · next hequ => rw [hequ]; exact List.filter_sublist _
       · exact List.Sublist.refl _)

theorem check_limits_allowed_counter (now : ℚ) (uid : Option Nat) (st : APIRateLimiter) :
    (check_limits now uid st).1 = .allowed →
    (check_limits now uid st).2.counter.global_requests
      = st.counter.global_requests.filter (fun t => now - 60 < t)
    ∧ ∀ u, uid = some u → u ≠ 0 →
        (check_limits now uid st).2.counter.user_requests u
          = (st.counter.user_requests u).filter (fun t => now - 3600 < t) := by
  unfold check_limits get_global_count_last_minute get_user_count_last_hour
  cases uid
  all_goals simp only
  all_goals repeat' split
  all_goals intro h
  all_goals first
    | exact CheckResult.noConfusion h
    | (refine ⟨rfl, fun u hu hne => ?_⟩
       first
         | exact Option.noConfusion hu
         | (injection hu with hh
            subst hh
            simp_all))

/-- Case analysis of one guarded attempt: either admission is denied and the
error is RateLimitExceeded, or admission succeeds and the attempt follows
the operation's outcome. -/
theorem guarded_attempt_cases (now : ℚ) (uid : Option Nat) (out : OpOutcome E T)
    (st : APIRateLimiter) :
    (∃ r, (check_limits now uid st).1 = .denied r ∧
       guarded_attempt now uid out st
         = (.error (.rateLimitExceeded r), (check_limits now uid st).2))
    ∨ ((check_limits now uid st).1 = .allowed ∧
        ((∃ v, out = .ok v ∧ guarded_attempt now uid out st
            = (.ok v, limiter_record_request now uid (check_limits now uid st).2))
         ∨ (∃ e, out = .raise e ∧ guarded_attempt now uid out st
            = (.error (.exc e), limiter_record_failure now (check_limits now uid st).2))
         ∨ (out = .hang ∧ guarded_attempt now uid out st
            = (.error .apiTimeout, (check_limits now uid st).2)))) := by
  rcases hc : (check_limits now uid st).1 with _ | r
  · refine Or.inr ⟨rfl, ?_⟩
    cases out with
    | ok v => exact Or.inl ⟨v, rfl, by simp [guarded_attempt, hc]⟩
    | raise e => exact Or.inr (Or.inl ⟨e, rfl, by simp [guarded_attempt, hc]⟩)
    | hang => exact Or.inr (Or.inr ⟨rfl, by simp [guarded_attempt, hc]⟩)
  · exact Or.inl ⟨r, rfl, by simp [guarded_attempt, hc]⟩

/-! ### Claim C10: counters are charged only on success -/

/-- C10 amended.  One attempt of the guard appends the timestamp to the
global window, and to the caller's hourly window when a truthy caller id is
given, exactly when the wrapped operation returns without raising; a denial
or a raising (or hanging) operation appends nothing to either window — the
post-state timestamp lists are sublists of the pre-state ones (admission
checks may purge entries already outside the window, but never add any). -/
theorem counters_charged_only_on_success (now : ℚ) (uid : Option Nat)
    (out : OpOutcome E T) (st : APIRateLimiter) :
    ((∃ v, (guarded_attempt now uid out st).1 = Except.ok v) →
        (guarded_attempt now uid out st).2.counter.global_requests
          = st.counter.global_requests.filter (fun t => now - 60 < t) ++ [now]
        ∧ ∀ u, uid = some u → u ≠ 0 →
            (guarded_attempt now uid out st).2.counter.user_requests u
              = (st.counter.user_requests u).filter (fun t => now - 3600 < t) ++ [now])
    ∧ (∀ x, (guarded_attempt now uid out st).1 = Except.error x →
        (guarded_attempt now uid out st).2.counter.global_requests.Sublist
            st.counter.global_requests
        ∧ ∀ u, ((guarded_attempt now uid out st).2.counter.user_requests u).Sublist
            (st.counter.user_requests u)) := by
  have hsub := check_limits_counter_sub now uid st
  rcases guarded_attempt_cases now uid out st with ⟨r, _, hga⟩ | ⟨hal, hcase⟩
  · constructor
    · rintro ⟨v, hv⟩; rw [hga] at hv; exact Except.noConfusion hv
    · intro x _
      rw [hga]
      exact hsub
  · rcases hcase with ⟨v, hout, hga⟩ | ⟨e, hout, hga⟩ | ⟨hout, hga⟩
    · constructor
      · intro _
        have hcnt := check_limits_allowed_counter now uid st hal
        rw [hga]
        constructor
        · show (add_request now uid (check_limits now uid st).2.counter).global_requests
              = _
          unfold add_request
          rw [hcnt.1]
        · intro u hu hne
          subst hu
          show (add_request now (some u) (check_limits now (some u) st).2.counter).user_requests u
              = _
          unfold add_request
          simp only [if_pos hne, Function.update_same]
          rw [hcnt.2 u rfl hne]
      · intro x hv; rw [hga] at hv; exact Except.noConfusion hv
    · constructor
      · rintro ⟨v, hv⟩; rw [hga] at hv; exact Except.noConfusion hv
      · intro x _
        rw [hga]
        exact hsub
    · constructor
      · rintro ⟨v, hv⟩; rw [hga] at hv; exact Except.noConfusion hv
      · intro x _
        rw [hga]
        exact hsub

/-- Witness for C10: a successful attempt with caller id 7 on a fresh
limiter charges both windows with the timestamp. -/
theorem counters_charged_only_on_success_witness :
    (guarded_attempt 1 (some 7) (OpOutcome.ok (0 : Nat) : OpOutcome Nat Nat)
        (initLimiter {})).1 = Except.ok 0
    ∧ (guarded_attempt 1 (some 7) (OpOutcome.ok (0 : Nat) : OpOutcome Nat Nat)
        (initLimiter {})).2.counter.global_requests
        = ((initLimiter {}).counter.global_requests.filter (fun t => (1 : ℚ) - 60 < t)) ++ [1]
    ∧ ∀ u, (some 7 : Option Nat) = some u → u ≠ 0 →
        (guarded_attempt 1 (some 7) (OpOutcome.ok (0 : Nat) : OpOutcome Nat Nat)
          (initLimiter {})).2.counter.user_requests u
          = (((initLimiter {}).counter.user_requests u).filter (fun t => (1 : ℚ) - 3600 < t)) ++ [1] :=
  ⟨rfl,
    ((counters_charged_only_on_success 1 (some 7)
        (OpOutcome.ok (0 : Nat) : OpOutcome Nat Nat) (initLimiter {})).1 ⟨0, rfl⟩).1,
    ((counters_charged_only_on_success 1 (some 7)
        (OpOutcome.ok (0 : Nat) : OpOutcome Nat Nat) (initLimiter {})).1 ⟨0, rfl⟩).2⟩

/-- A limiter whose global window holds one stale timestamp (epoch 0). -/
def staleCounterSt : APIRateLimiter :=
  { config := {},
    counter := { user_requests := fun _ => [], global_requests := [0] },
    circuit_breaker := initBreaker 5 300 }

/-- Counterexample to C10 as stated: an attempt whose operation raises
leaves the global sliding-window list changed (the stale entry is purged
during admission), so the counters are not left exactly as they were. -/
theorem raising_attempt_changes_counter_list :
    (guarded_attempt 100 none (OpOutcome.raise (0 : Nat) : OpOutcome Nat Nat)
        staleCounterSt).1 = Except.error (GuardErr.exc 0)
    ∧ (guarded_attempt 100 none (OpOutcome.raise (0 : Nat) : OpOutcome Nat Nat)
        staleCounterSt).2.counter.global_requests = []
    ∧ staleCounterSt.counter.global_requests ≠ [] := by
  have hf : ((100 : ℚ) - 60 < 0) = False := by norm_num
  refine ⟨?_, ?_, by simp [staleCounterSt]⟩ <;>
    simp [staleCounterSt, guarded_attempt, check_limits, can_execute, initBreaker,
      get_global_count_last_minute, get_user_count_last_hour, limiter_record_failure,
      record_failure, hf]

/-! ### Claim C4: retry policy of the composed guard -/

/-- Limiter state after k straight recorded failures (at instants times 1,
.., times k) from a fresh default limiter: counters untouched, breaker
count k, last failure stamped at times k, open once k reaches 5. -/
def failedState (times : Nat → ℚ) (k : Nat) : APIRateLimiter :=
  { config := {},
    counter := initCounter,
    circuit_breaker :=
      { threshold := 5, timeout := 300, failure_count := k,
        last_failure_time := if k = 0 then none else some (times k),
        is_open := decide (5 ≤ k) } }

theorem guarded_attempt_generic_step {E T : Type} (es : Nat → E) (times : Nat → ℚ)
    (k : Nat) (hk1 : 1 ≤ k) (hk5 : k ≤ 5) :
    guarded_attempt (times k) none (OpOutcome.raise (es k) : OpOutcome E T)
        (failedState times (k - 1))
      = (.error (.exc (es k)), failedState times k) := by
  have hopen : (failedState times (k - 1)).circuit_breaker.is_open = false := by
    simp only [failedState, decide_eq_false_iff_not]
    omega
  have hcan := can_execute_closed (times k) (failedState times (k - 1)).circuit_breaker hopen
  have hchk := check_limits_none_emptyCounter (times k) (failedState times (k - 1)) rfl
    (show (0 : Nat) < 20 by decide) _ hcan
  have hfc : k - 1 + 1 = k := by omega
  have hga : guarded_attempt (times k) none (OpOutcome.raise (es k) : OpOutcome E T)
      (failedState times (k - 1))
      = (.error (.exc (es k)),
         limiter_record_failure (times k)
           { config := (failedState times (k - 1)).config, counter := initCounter,
             circuit_breaker := (failedState times (k - 1)).circuit_breaker }) := by
    simp [guarded_attempt, hchk]
  rw [hga]
  unfold limiter_record_failure record_failure failedState
  have hk0 : ¬ k = 0 := by omega
  by_cases h5 : 5 ≤ k
  · have h51 : 5 ≤ k - 1 + 1 := by omega
    simp [hfc, hk0, h5, h51]
  · have h51 : ¬ 5 ≤ k - 1 + 1 := by omega
    have h52 : ¬ 5 ≤ k - 1 := by omega
    simp [hfc, hk0, h5, h51, h52]

/-- One-step unfolding of the retry loop when the attempt fails with a
non-retryable guard error: it is surfaced at once, with no sleep. -/
theorem with_retry_go_nonretryable_step {E T : Type} (op : Nat → OpOutcome E T)
    (times : Nat → ℚ) (uid : Option Nat) (base : ℚ) (attempt : Nat)
    (lastE : Option (GuardErr E)) (st st' : APIRateLimiter) (e : GuardErr E) (r : Nat)
    (ha : guarded_attempt (times attempt) uid (op attempt) st = (.error e, st'))
    (hnr : nonRetryable e = true) :
    with_retry_go op times uid base attempt lastE st (r + 1)
      = ⟨.error (some e), st', [], 1⟩ := by
  rw [with_retry_go, ha]
  simp [hnr]

/-- One-step unfolding of the retry loop when the attempt fails with an
ordinary exception and this was the final attempt. -/
theorem with_retry_go_last_exc {E T : Type} (op : Nat → OpOutcome E T)
    (times : Nat → ℚ) (uid : Option Nat) (base : ℚ) (attempt : Nat)
    (lastE : Option (GuardErr E)) (st st' : APIRateLimiter) (e : E)
    (ha : guarded_attempt (times attempt) uid (op attempt) st = (.error (.exc e), st')) :
    with_retry_go op times uid base attempt lastE st 1
      = ⟨.error (some (.exc e)), st', [], 1⟩ := by
  rw [with_retry_go, ha]
  simp [nonRetryable]

/-- One-step unfolding of the retry loop when the attempt fails with an
ordinary exception and attempts remain: sleep base * 2 ^ (attempt - 1) and
continue with the next attempt. -/
theorem with_retry_go_retryable_step {E T : Type} (op : Nat → OpOutcome E T)
    (times : Nat → ℚ) (uid : Option Nat) (base : ℚ) (attempt : Nat)
    (lastE : Option (GuardErr E)) (st st' : APIRateLimiter) (e : E) (r : Nat)
    (ha : guarded_attempt (times attempt) uid (op attempt) st = (.error (.exc e), st'))
    (hr : r ≠ 0) :
    with_retry_go op times uid base attempt lastE st (r + 1)
      = ⟨(with_retry_go op times uid base (attempt + 1) (some (.exc e)) st' r).result,
         (with_retry_go op times uid base (attempt + 1) (some (.exc e)) st' r).state,
         base * 2 ^ (attempt - 1)
           :: (with_retry_go op times uid base (attempt + 1) (some (.exc e)) st' r).delays,
         (with_retry_go op times uid base (attempt + 1) (some (.exc e)) st' r).calls + 1⟩ := by
  rw [with_retry_go, ha]
  simp [nonRetryable, hr]

theorem with_retry_go_generic {E T : Type} (es : Nat → E) (times : Nat → ℚ) (base : ℚ) :
    ∀ (remaining k : Nat) (lastE : Option (GuardErr E)), 1 ≤ remaining → 1 ≤ k →
      k + remaining ≤ 6 →
      with_retry_go (fun j => (OpOutcome.raise (es j) : OpOutcome E T)) times none base
          k lastE (failedState times (k - 1)) remaining
        = ⟨.error (some (.exc (es (k + remaining - 1)))),
           failedState times (k + remaining - 1),
           (List.range (remaining - 1)).map (fun i => base * 2 ^ (k - 1 + i)),
           remaining⟩ := by
  intro remaining
  induction remaining with
  | zero => intro k lastE h1 _ _; exact absurd h1 (by omega)
  | succ r ih =>
    intro k lastE h1 hk h6
    have hstep := @guarded_attempt_generic_step E T es times k hk (by omega)
    cases r with
    | zero =>
      rw [with_retry_go_last_exc _ times none base k lastE _ _ _ hstep]
      simp
    | succ r' =>
      have hk1 : k + 1 - 1 = k := by omega
      have hih := ih (k + 1) (some (.exc (es k))) (by omega) (by omega) (by omega)
      rw [hk1] at hih
      rw [with_retry_go_retryable_step _ times none base k lastE _ _ _ _ hstep
        (Nat.succ_ne_zero r')]
      simp only [hih]
      simp only [RetryTrace.mk.injEq]
      have hidx : k + 1 + (r' + 1) - 1 = k + (r' + 1 + 1) - 1 := by omega
      refine ⟨by rw [hidx], by rw [hidx], ?_, trivial⟩
      show base * 2 ^ (k - 1) :: (List.range r').map (fun i => base * 2 ^ (k + i))
          = (List.range (r' + 1)).map (fun i => base * 2 ^ (k - 1 + i))
      rw [List.range_succ_eq_map]
      simp only [List.map_cons, List.map_map, Nat.add_zero]
      refine congrArg₂ List.cons rfl ?_
      refine (List.map_congr_left (fun i _ => ?_)).symm
      have h3 : k - 1 + Nat.succ i = k + i := by omega
      simp [Function.comp, h3]

/-- C4 amended.  In the composed guard: (1) a RateLimited, CircuitOpen or
Timeout error from an attempt is never retried and is surfaced immediately,
with no back-off sleep and no further attempt; (2) any other exception is
retried: with maxRetries total attempts (so maxRetries - 1 retries, not
maxRetries retries), sleeping base * 2 ^ (attempt - 1) after each failed
attempt that is not the last, and when the budget is exhausted the guard
raises the last underlying error itself — there is no ExhaustedRetries
wrapper anywhere in the source. -/
theorem guard_retry_policy {E T : Type} :
    (∀ (op : Nat → OpOutcome E T) (times : Nat → ℚ) (uid : Option Nat) (base : ℚ)
        (st : APIRateLimiter) (r : Nat) (e : GuardErr E),
        (guarded_attempt (times 1) uid (op 1) st).1 = .error e →
        nonRetryable e = true →
        safe_api_call op times uid (r + 1) base st
          = ⟨.error (some e), (guarded_attempt (times 1) uid (op 1) st).2, [], 1⟩)
    ∧ (∀ (es : Nat → E) (times : Nat → ℚ) (base : ℚ) (mr : Nat), 1 ≤ mr → mr ≤ 5 →
        safe_api_call (fun j => (OpOutcome.raise (es j) : OpOutcome E T)) times none mr
            base (initLimiter {})
          = ⟨.error (some (.exc (es mr))), failedState times mr,
             (List.range (mr - 1)).map (fun i => base * 2 ^ i), mr⟩) := by
  constructor
  · intro op times uid base st r e he hnr
    unfold safe_api_call
    rcases hg : guarded_attempt (times 1) uid (op 1) st with ⟨res, st2⟩
    have he' : res = .error e := by rw [hg] at he; exact he
    subst he'
    rw [with_retry_go_nonretryable_step op times uid base 1 none st st2 e r hg hnr]
  · intro es times base mr h1 h5
    have hinit : initLimiter {} = failedState times 0 := rfl
    unfold safe_api_call
    rw [hinit]
    have hrun := @with_retry_go_generic E T es times base mr 1 none h1 (le_refl 1) (by omega)
    rw [show failedState times 0 = failedState times (1 - 1) from rfl, hrun]
    have hmr : 1 + mr - 1 = mr := by omega
    simp [hmr]

/-- Witness for C4: a hanging operation is surfaced as APITimeoutError with
a single attempt, and a uniformly raising operation with max_retries 3 runs
three attempts with back-off delays 1 and 2 and surfaces the third error. -/
theorem guard_retry_policy_witness :
    safe_api_call (fun _ => (OpOutcome.hang : OpOutcome Nat Nat)) (fun _ => 1) none 3 1
        (initLimiter {})
      = ⟨.error (some .apiTimeout),
         (guarded_attempt 1 none (OpOutcome.hang : OpOutcome Nat Nat) (initLimiter {})).2,
         [], 1⟩
    ∧ safe_api_call (fun j => (OpOutcome.raise j : OpOutcome Nat Nat)) (fun _ => 1) none 3 1
        (initLimiter {})
      = ⟨.error (some (.exc 3)), failedState (fun _ => 1) 3,
         (List.range 2).map (fun i => (1 : ℚ) * 2 ^ i), 3⟩ :=
  ⟨(@guard_retry_policy Nat Nat).1 (fun _ => OpOutcome.hang) (fun _ => 1) none 1
      (initLimiter {}) 2 GuardErr.apiTimeout rfl rfl,
   (@guard_retry_policy Nat Nat).2 (fun j => j) (fun _ => 1) 1 3 (by omega) (by omega)⟩

/-- Counterexample to C4 as stated: with max_retries 3 and an operation
that always raises the ordinary exception 7, the guard makes 3 attempts in
total (2 retries, not the 3 retries the claim describes) and the surfaced
error is the raw underlying exception itself, not an ExhaustedRetries
wrapper (no such class exists in the source). -/
theorem exhausted_retries_raises_raw_error :
    (safe_api_call (fun _ => (OpOutcome.raise 7 : OpOutcome Nat Nat)) (fun _ => 1) none 3 1
        (initLimiter {})).result = Except.error (some (GuardErr.exc 7))
    ∧ (safe_api_call (fun _ => (OpOutcome.raise 7 : OpOutcome Nat Nat)) (fun _ => 1) none 3
        1 (initLimiter {})).calls = 3 :=
  ⟨rfl, rfl⟩

/-! ### Claim C5: breaker recording on terminal outcomes -/

theorem guarded_ok_state {E T : Type} (now : ℚ) (uid : Option Nat) (out : OpOutcome E T)
    (st : APIRateLimiter) (v : T)
    (h : (guarded_attempt now uid out st).1 = Except.ok v) :
    (guarded_attempt now uid out st).2.circuit_breaker.failure_count = 0
    ∧ (guarded_attempt now uid out st).2.circuit_breaker.is_open = false := by
  rcases guarded_attempt_cases now uid out st with ⟨r, _, hga⟩ | ⟨_, hcase⟩
  · rw [hga] at h; exact Except.noConfusion h
  · rcases hcase with ⟨v', _, hga⟩ | ⟨e, _, hga⟩ | ⟨_, hga⟩
    · rw [hga]; exact ⟨rfl, rfl⟩
    · rw [hga] at h; exact Except.noConfusion h
    · rw [hga] at h; exact Except.noConfusion h

/-- One-step unfolding of the retry loop on a successful attempt. -/
theorem with_retry_go_ok_step {E T : Type} (op : Nat → OpOutcome E T)
    (times : Nat → ℚ) (uid : Option Nat) (base : ℚ) (attempt : Nat)
    (lastE : Option (GuardErr E)) (st st' : APIRateLimiter) (v : T)
    (ha : guarded_attempt (times attempt) uid (op attempt) st = (.ok v, st')) (r : Nat) :
    with_retry_go op times uid base attempt lastE st (r + 1) = ⟨.ok v, st', [], 1⟩ := by
  rw [with_retry_go, ha]

theorem with_retry_go_ok_state {E T : Type} (op : Nat → OpOutcome E T) (times : Nat → ℚ)
    (uid : Option Nat) (base : ℚ) :
    ∀ (remaining attempt : Nat) (lastE : Option (GuardErr E)) (st : APIRateLimiter) (v : T),
    (with_retry_go op times uid base attempt lastE st remaining).result = Except.ok v →
    (with_retry_go op times uid base attempt lastE st
        remaining).state.circuit_breaker.failure_count = 0
    ∧ (with_retry_go op times uid base attempt lastE st
        remaining).state.circuit_breaker.is_open = false := by
  intro remaining
  induction remaining with
  | zero =>
    intro attempt lastE st v h
    exact Except.noConfusion h
  | succ r ih =>
    intro attempt lastE st v h
    rcases hga : guarded_attempt (times attempt) uid (op attempt) st with ⟨res, st2⟩
    cases res with
    | ok v' =>
      rw [with_retry_go_ok_step op times uid base attempt lastE st st2 v' hga r] at h ⊢
      have hok := guarded_ok_state (times attempt) uid (op attempt) st v' (by rw [hga])
      rw [hga] at hok
      exact hok
    | error e =>
      cases e with
      | rateLimitExceeded rr =>
        rw [with_retry_go_nonretryable_step op times uid base attempt lastE st st2 _ r
          hga rfl] at h
        exact Except.noConfusion h
      | circuitBreakerOpen =>
        rw [with_retry_go_nonretryable_step op times uid base attempt lastE st st2 _ r
          hga rfl] at h
        exact Except.noConfusion h
      | apiTimeout =>
        rw [with_retry_go_nonretryable_step op times uid base attempt lastE st st2 _ r
          hga rfl] at h
        exact Except.noConfusion h
      | exc e' =>
        cases r with
        | zero =>
          rw [with_retry_go_last_exc op times uid base attempt lastE st st2 e' hga] at h
          exact Except.noConfusion h
        | succ r' =>
          rw [with_retry_go_retryable_step op times uid base attempt lastE st st2 e'
            (r' + 1) hga (Nat.succ_ne_zero r')] at h ⊢
          exact ih (attempt + 1) (some (GuardErr.exc e')) st2 v h

/-- C5 amended.  Per attempt of the guard: a success runs recordSuccess
(failure count reset to 0, breaker closed); an ordinary exception runs
recordFailure (failure count incremented, possibly from a cooldown reset);
a timeout does NOT run recordFailure (the count never grows and the breaker
stays closed, because wait_for cancels the inner coroutine with a
BaseException the except-Exception handler misses); a denial does not run
recordFailure either.  Consequently every terminal success of the composed
safe_api_call leaves the breaker reset and closed. -/
theorem record_on_terminal_outcomes {E T : Type} :
    (∀ (now : ℚ) (uid : Option Nat) (out : OpOutcome E T) (st : APIRateLimiter),
      ((∃ v, (guarded_attempt now uid out st).1 = Except.ok v) →
          (guarded_attempt now uid out st).2.circuit_breaker.failure_count = 0
          ∧ (guarded_attempt now uid out st).2.circuit_breaker.is_open = false)
      ∧ (∀ e : E, (guarded_attempt now uid out st).1 = Except.error (GuardErr.exc e) →
          (guarded_attempt now uid out st).2.circuit_breaker.failure_count
              = st.circuit_breaker.failure_count + 1
            ∨ (guarded_attempt now uid out st).2.circuit_breaker.failure_count = 1)
      ∧ ((guarded_attempt now uid out st).1 = Except.error GuardErr.apiTimeout →
          (guarded_attempt now uid out st).2.circuit_breaker.failure_count
            ≤ st.circuit_breaker.failure_count
          ∧ (guarded_attempt now uid out st).2.circuit_breaker.is_open = false)
      ∧ (∀ r, (guarded_attempt now uid out st).1
            = Except.error (GuardErr.rateLimitExceeded r) →
          (guarded_attempt now uid out st).2.circuit_breaker.failure_count
            ≤ st.circuit_breaker.failure_count))
    ∧ (∀ (op : Nat → OpOutcome E T) (times : Nat → ℚ) (uid : Option Nat) (mr : Nat)
        (base : ℚ) (st : APIRateLimiter) (v : T),
        (safe_api_call op times uid mr base st).result = Except.ok v →
        (safe_api_call op times uid mr base st).state.circuit_breaker.failure_count = 0
        ∧ (safe_api_call op times uid mr base st).state.circuit_breaker.is_open = false) := by
  constructor
  · intro now uid out st
    have hbr := check_limits_breaker now uid st
    rcases guarded_attempt_cases now uid out st with ⟨r, _, hga⟩ | ⟨hal, hcase⟩
    · refine ⟨?_, ?_, ?_, ?_⟩
      · rintro ⟨v, hv⟩; rw [hga] at hv; exact Except.noConfusion hv
      · intro e hv; rw [hga] at hv
        exact GuardErr.noConfusion (Except.error.inj hv)
      · intro hv; rw [hga] at hv
        exact GuardErr.noConfusion (Except.error.inj hv)
      · intro r' hv
        rw [hga]
        simp only [hbr]
        exact can_execute_fc_le now st.circuit_breaker
    · rcases hcase with ⟨v, hout, hga⟩ | ⟨e, hout, hga⟩ | ⟨hout, hga⟩
      · refine ⟨?_, ?_, ?_, ?_⟩
        · intro _
          rw [hga]
          constructor <;> rfl
        · intro e hv; rw [hga] at hv; exact Except.noConfusion hv
        · intro hv; rw [hga] at hv; exact Except.noConfusion hv
        · intro r hv; rw [hga] at hv; exact Except.noConfusion hv
      · refine ⟨?_, ?_, ?_, ?_⟩
        · rintro ⟨v, hv⟩; rw [hga] at hv; exact Except.noConfusion hv
        · intro e' hv
          rw [hga]
          show (record_failure now
                  (check_limits now uid st).2.circuit_breaker).failure_count
                = st.circuit_breaker.failure_count + 1
              ∨ (record_failure now
                  (check_limits now uid st).2.circuit_breaker).failure_count = 1
          rw [hbr]
          rcases can_execute_cases now st.circuit_breaker with ⟨he, _⟩ | he | he <;>
            rw [he] <;> simp [record_failure]
        · intro hv; rw [hga] at hv
          exact GuardErr.noConfusion (Except.error.inj hv)
        · intro r hv; rw [hga] at hv
          exact GuardErr.noConfusion (Except.error.inj hv)
      · refine ⟨?_, ?_, ?_, ?_⟩
        · rintro ⟨v, hv⟩; rw [hga] at hv; exact Except.noConfusion hv
        · intro e hv; rw [hga] at hv
          exact GuardErr.noConfusion (Except.error.inj hv)
        · intro _
          rw [hga]
          simp only [hbr]
          exact ⟨can_execute_fc_le now st.circuit_breaker,
            can_execute_true_closed now st.circuit_breaker
              (check_limits_allowed_can now uid st hal)⟩
        · intro r hv; rw [hga] at hv
          exact GuardErr.noConfusion (Except.error.inj hv)
  · intro op times uid mr base st v h
    exact with_retry_go_ok_state op times uid base mr 1 none st v h

/-- Witness for C5: the success conjuncts at a fresh limiter, for one
attempt and for the composed call. -/
theorem record_on_terminal_outcomes_witness :
    (guarded_attempt 1 none (OpOutcome.ok (0 : Nat) : OpOutcome Nat Nat)
        (initLimiter {})).1 = Except.ok 0
    ∧ ((guarded_attempt 1 none (OpOutcome.ok (0 : Nat) : OpOutcome Nat Nat)
          (initLimiter {})).2.circuit_breaker.failure_count = 0
        ∧ (guarded_attempt 1 none (OpOutcome.ok (0 : Nat) : OpOutcome Nat Nat)
            (initLimiter {})).2.circuit_breaker.is_open = false)
    ∧ (safe_api_call (fun _ => (OpOutcome.ok 0 : OpOutcome Nat Nat)) (fun _ => 1) none 3 1
        (initLimiter {})).result = Except.ok 0
    ∧ ((safe_api_call (fun _ => (OpOutcome.ok 0 : OpOutcome Nat Nat)) (fun _ => 1) none 3 1
          (initLimiter {})).state.circuit_breaker.failure_count = 0
        ∧ (safe_api_call (fun _ => (OpOutcome.ok 0 : OpOutcome Nat Nat)) (fun _ => 1) none 3
            1 (initLimiter {})).state.circuit_breaker.is_open = false) :=
  ⟨rfl,
   ((@record_on_terminal_outcomes Nat Nat).1 1 none (OpOutcome.ok 0) (initLimiter {})).1
     ⟨0, rfl⟩,
   rfl,
   (@record_on_terminal_outcomes Nat Nat).2 (fun _ => OpOutcome.ok 0) (fun _ => 1) none 3 1
     (initLimiter {}) 0 rfl⟩

/-- Counterexample to C5 as stated: a composed guarded call whose operation
hangs terminates with APITimeoutError, yet the breaker failure count of the
fresh limiter stays 0 — recordFailure was never invoked for this terminal
Timeout. -/
theorem timeout_does_not_record_failure :
    (safe_api_call (fun _ => (OpOutcome.hang : OpOutcome Nat Nat)) (fun _ => 1) none 3 1
        (initLimiter {})).result = Except.error (some GuardErr.apiTimeout)
    ∧ (safe_api_call (fun _ => (OpOutcome.hang : OpOutcome Nat Nat)) (fun _ => 1) none 3 1
        (initLimiter {})).state.circuit_breaker.failure_count = 0 :=
  ⟨rfl, rfl⟩

/-! ### Splitter (services/post_service.py: split_post_into_parts and
split_by_sentences)

Text is modelled as List Char.  The Python regular-expression whitespace
class is modelled by its ASCII members (the Unicode extras play no role in
any claim). -/

/-- MULTIPOST_THRESHOLD from post_service.py. -/
def MULTIPOST_THRESHOLD : Nat := 1000

/-- ASCII members of the regex whitespace class and of str.strip. -/
def isSpace (c : Char) : Bool :=
  c == ' ' || c == '\t' || c == '\n' || c == '\r' || c == '\x0b' || c == '\x0c'

/-- The sentence-ending characters of the pattern: period, bang, question. -/
def isSentEnd (c : Char) : Bool :=
  c == '.' || c == '!' || c == '?'

/-- Python str.split on the two-character separator of two newlines:
leftmost non-overlapping, keeping empty pieces (acc holds the current piece
reversed). -/
def splitSep : List Char → List Char → List (List Char)
  | '\n' :: '\n' :: rest, acc => acc.reverse :: splitSep rest []
  | c :: rest, acc => splitSep rest (c :: acc)
  | [], acc => [acc.reverse]

/-- text.split of the paragraph separator. -/
def pySplitPar (text : List Char) : List (List Char) := splitSep text []

/-- Scanner for re.split of a whitespace run preceded by a sentence-end
character: the Bool flag is true while consuming the (greedy) whitespace
run of a match; acc holds the current piece reversed.  The lookbehind is
the head of acc; it fails at the start of the input and right after a
match, exactly as the regex engine behaves. -/
def sentAux : List Char → Bool → List Char → List (List Char)
  | [], _, acc => [acc.reverse]
  | c :: rest, true, acc =>
      if isSpace c then sentAux rest true acc
      else sentAux rest false [c]
  | c :: rest, false, acc =>
      if (match acc with | p :: _ => isSentEnd p | [] => false) && isSpace c then
        acc.reverse :: sentAux rest true []
      else sentAux rest false (c :: acc)

/-- split_by_sentences: regex split, then drop pieces that are empty after
strip (that is, pieces with no non-whitespace character). -/
def split_by_sentences (text : List Char) : List (List Char) :=
  (sentAux text false []).filter (fun s => s.any (fun c => !(isSpace c)))

/-- Decimal digits of a natural number (fuel-driven so that it reduces in
the kernel). -/
def natDigitsAux : Nat → Nat → List Char
  | 0, _ => []
  | fuel + 1, n =>
    if n < 10 then [Char.ofNat (48 + n)]
    else natDigitsAux fuel (n / 10) ++ [Char.ofNat (48 + n % 10)]

/-- Decimal rendering of a natural number. -/
def natChars (n : Nat) : List Char := natDigitsAux (n + 1) n

/-- The position marker the source appends to part i of total: two
newlines, then the italicised (i/total). -/
def marker (i total : Nat) : List Char :=
  '\n' :: '\n' :: '<' :: 'i' :: '>' :: '(' ::
    (natChars i ++ '/' :: natChars total ++ [')', '<', '/', 'i', '>'])

/-- The two mutable variables of the splitting loops. -/
structure SplitAcc where
  parts : List (List Char)
  current : List Char

/-- Python current + (sep if current else empty) + x: the separator is
inserted only in front of a nonempty accumulator. -/
def joinSep (cur sep x : List Char) : List Char :=
  cur ++ (if cur.isEmpty then [] else sep) ++ x

/-- Python if current: parts.append(current) — the empty accumulator is
not flushed. -/
def flushCurrent (parts : List (List Char)) (cur : List Char) : List (List Char) :=
  parts ++ (if cur.isEmpty then [] else [cur])

/-- The inner for-sent-in-sentences loop of split_post_into_parts.  Note
that on entry current still holds the text just appended to parts by the
enclosing loop — the source does not clear it, so those characters can be
duplicated into the next part. -/
def sentLoop (maxLen : Nat) : List (List Char) → SplitAcc → SplitAcc
  | [], acc => acc
  | sent :: rest, acc =>
    if acc.current.length + sent.length + 2 ≤ maxLen then
      sentLoop maxLen rest ⟨acc.parts, joinSep acc.current [' '] sent⟩
    else
      sentLoop maxLen rest ⟨flushCurrent acc.parts acc.current, sent⟩

/-- The for-para-in-paragraphs loop of split_post_into_parts. -/
def paraLoop (maxLen : Nat) : List (List Char) → SplitAcc → SplitAcc
  | [], acc => acc
  | para :: rest, acc =>
    if (joinSep acc.current ['\n', '\n'] para).length ≤ maxLen then
      paraLoop maxLen rest ⟨acc.parts, joinSep acc.current ['\n', '\n'] para⟩
    else
      paraLoop maxLen rest
        (if para.length ≤ maxLen then
          ⟨flushCurrent acc.parts acc.current, para⟩
        else
          sentLoop maxLen (split_by_sentences para)
            ⟨flushCurrent acc.parts acc.current, acc.current⟩)

/-- The parts list of split_post_into_parts just before numbering: run the
paragraph loop and flush the final current part if nonempty. -/
def rawParts (text : List Char) (maxLen : Nat) : List (List Char) :=
  flushCurrent (paraLoop maxLen (pySplitPar text) ⟨[], []⟩).parts
    (paraLoop maxLen (pySplitPar text) ⟨[], []⟩).current

/-- The numbering loop: append the (i/total) marker to every part, i
counted from the given start. -/
def numberParts (total : Nat) : Nat → List (List Char) → List (List Char)
  | _, [] => []
  | i, p :: rest => (p ++ marker i total) :: numberParts total (i + 1) rest

/-- split_post_into_parts: short texts (at most MULTIPOST_THRESHOLD
characters) are returned unchanged as a single part whatever max_length
is; longer texts are split and, when more than one part results, every
part — including the first — receives a position marker. -/
def split_post_into_parts (text : List Char) (maxLen : Nat) : List (List Char) :=
  if text.length ≤ MULTIPOST_THRESHOLD then [text]
  else
    let parts := rawParts text maxLen
    if parts.length > 1 then numberParts parts.length 1 parts
    else parts

/-- Removing the known (i/total) marker from part i: drop that many
characters from the end. -/
def stripMarker (total i : Nat) (p : List Char) : List Char :=
  p.take (p.length - (marker i total).length)

/-- Strip the markers of parts numbered from the given start. -/
def stripRec (total : Nat) : Nat → List (List Char) → List (List Char)
  | _, [] => []
  | i, p :: rest => stripMarker total i p :: stripRec total (i + 1) rest

/-- Strip the position markers from a split result: a single part carries
no marker and is returned unchanged. -/
def stripMarkers (parts : List (List Char)) : List (List Char) :=
  if parts.length ≤ 1 then parts else stripRec parts.length 1 parts

theorem numberParts_length (total : Nat) (i : Nat) (l : List (List Char)) :
    (numberParts total i l).length = l.length := by
  induction l generalizing i with
  | nil => rfl
  | cons p rest ih => simp [numberParts, ih]

theorem stripRec_numberParts (total : Nat) (i : Nat) (l : List (List Char)) :
    stripRec total i (numberParts total i l) = l := by
  induction l generalizing i with
  | nil => rfl
  | cons p rest ih =>
    simp only [numberParts, stripRec, ih]
    unfold stripMarker
    rw [List.length_append, Nat.add_sub_cancel, List.take_left]

/-- Stripping the markers of a long text's split recovers the parts list
before numbering. -/
theorem stripMarkers_split (text : List Char) (n : Nat)
    (hlong : MULTIPOST_THRESHOLD < text.length) :
    stripMarkers (split_post_into_parts text n) = rawParts text n := by
  unfold split_post_into_parts
  rw [if_neg (by omega)]
  by_cases h1 : (rawParts text n).length > 1
  · simp only [if_pos h1]
    unfold stripMarkers
    rw [numberParts_length]
    rw [if_neg (by omega)]
    exact stripRec_numberParts _ _ _
  · simp only [if_neg h1]
    unfold stripMarkers
    rw [if_pos (by omega)]

/-! ### Claim C3: part-length bound -/

theorem joinSep_length_le (cur sep x : List Char) :
    (joinSep cur sep x).length ≤ cur.length + sep.length + x.length := by
  unfold joinSep
  by_cases he : cur.isEmpty <;> simp [he, List.length_append] <;> omega

theorem flushCurrent_bound (n : Nat) (parts : List (List Char)) (cur : List Char)
    (hp : ∀ p ∈ parts, p.length ≤ n) (hc : cur.length ≤ n) :
    ∀ p ∈ flushCurrent parts cur, p.length ≤ n := by
  intro p hp'
  unfold flushCurrent at hp'
  simp only [List.mem_append] at hp'
  rcases hp' with h | h
  · exact hp p h
  · by_cases he : cur.isEmpty
    · simp [he] at h
    · simp only [he, Bool.false_eq_true, if_false, List.mem_singleton] at h
      subst h
      exact hc

theorem sentLoop_inv (n : Nat) : ∀ (sents : List (List Char)) (acc : SplitAcc),
    (∀ s ∈ sents, s.length ≤ n) →
    (∀ p ∈ acc.parts, p.length ≤ n) → acc.current.length ≤ n →
    (∀ p ∈ (sentLoop n sents acc).parts, p.length ≤ n)
    ∧ (sentLoop n sents acc).current.length ≤ n := by
  intro sents
  induction sents with
  | nil => intro acc _ hp hc; exact ⟨hp, hc⟩
  | cons s rest ih =>
    intro acc hs hp hc
    have hs' : ∀ x ∈ rest, x.length ≤ n := fun x hx => hs x (List.mem_cons_of_mem _ hx)
    have hsl : s.length ≤ n := hs s (List.mem_cons_self _ _)
    simp only [sentLoop]
    split
    · next hfit =>
      refine ih _ hs' ?_ ?_
      · exact hp
      · calc (joinSep acc.current [' '] s).length
            ≤ acc.current.length + 1 + s.length := joinSep_length_le _ _ _
          _ ≤ n := by omega
    · refine ih _ hs' ?_ ?_
      · exact flushCurrent_bound n acc.parts acc.current hp hc
      · exact hsl

theorem paraLoop_inv (n : Nat) : ∀ (paras : List (List Char)) (acc : SplitAcc),
    (∀ para ∈ paras, ∀ s ∈ split_by_sentences para, s.length ≤ n) →
    (∀ p ∈ acc.parts, p.length ≤ n) → acc.current.length ≤ n →
    (∀ p ∈ (paraLoop n paras acc).parts, p.length ≤ n)
    ∧ (paraLoop n paras acc).current.length ≤ n := by
  intro paras
  induction paras with
  | nil => intro acc _ hp hc; exact ⟨hp, hc⟩
  | cons para rest ih =>
    intro acc hs hp hc
    have hs' : ∀ x ∈ rest, ∀ s ∈ split_by_sentences x, s.length ≤ n :=
      fun x hx => hs x (List.mem_cons_of_mem _ hx)
    have hpara := hs para (List.mem_cons_self _ _)
    have hp1 := flushCurrent_bound n acc.parts acc.current hp hc
    simp only [paraLoop]
    split
    · next hfit =>
      refine ih _ hs' ?_ ?_
      · exact hp
      · exact hfit
    · split
      · next hple =>
        refine ih _ hs' ?_ ?_
        · exact hp1
        · exact hple
      · have hsent := sentLoop_inv n (split_by_sentences para)
          ⟨flushCurrent acc.parts acc.current, acc.current⟩ hpara hp1 hc
        exact ih _ hs' hsent.1 hsent.2

theorem rawParts_bound (text : List Char) (n : Nat)
    (hs : ∀ para ∈ pySplitPar text, ∀ s ∈ split_by_sentences para, s.length ≤ n) :
    ∀ p ∈ rawParts text n, p.length ≤ n := by
  unfold rawParts
  have h := paraLoop_inv n (pySplitPar text) ⟨[], []⟩ hs
    (by intro p hp; simp at hp) (by simp)
  exact flushCurrent_bound n _ _ h.1 h.2

/-- C3 amended.  For a text long enough that splitting actually happens
(above the fixed 1000-character threshold), and provided every sentence
produced from its paragraphs fits in max_length, every part of the split —
with its appended marker excluded — has length at most max_length.  The
two hypotheses are forced by the source: a text at or below the threshold
is returned whole regardless of max_length, and a single sentence longer
than max_length becomes a part on its own, unsplit. -/
theorem split_length_bound (text : List Char) (n : Nat)
    (hlong : MULTIPOST_THRESHOLD < text.length)
    (hs : ∀ para ∈ pySplitPar text, ∀ s ∈ split_by_sentences para, s.length ≤ n) :
    ∀ p ∈ stripMarkers (split_post_into_parts text n), p.length ≤ n := by
  rw [stripMarkers_split text n hlong]
  exact rawParts_bound text n hs

/-- A 1001-character text of one 500-character paragraph and one
499-character paragraph. -/
def exText : List Char :=
  List.replicate 500 'a' ++ '\n' :: '\n' :: List.replicate 499 'b'

/-- Witness for C3 at exText with max_length 500: both parts fit. -/
theorem split_length_bound_witness :
    MULTIPOST_THRESHOLD < exText.length
    ∧ (∀ para ∈ pySplitPar exText, ∀ s ∈ split_by_sentences para, s.length ≤ 500)
    ∧ ∀ p ∈ stripMarkers (split_post_into_parts exText 500), p.length ≤ 500 :=
  ⟨by decide, by decide, split_length_bound exText 500 (by decide) (by decide)⟩

/-- Counterexample to C3 as stated: with max_length 1 the two-character
text is returned as one two-character part, because the threshold check
compares against the fixed constant 1000, not against max_length. -/
theorem short_text_ignores_max_length :
    split_post_into_parts ['a', 'b'] 1 = [['a', 'b']]
    ∧ ¬ (['a', 'b'] : List Char).length ≤ 1 :=
  ⟨rfl, by decide⟩

/-! ### Claim C2: split round-trip -/

/-- C2 amended.  The round-trip holds exactly in the regime where the
source does not split: a text of at most 1000 characters comes back as the
single untouched part, so concatenation after marker-stripping is the
identity.  For longer texts the paragraph separators consumed at part
boundaries (and the whitespace consumed by the sentence splitter) are not
restored, so concatenation does not reconstruct the text in general. -/
theorem split_round_trip_short (text : List Char) (n : Nat)
    (h : text.length ≤ MULTIPOST_THRESHOLD) :
    split_post_into_parts text n = [text]
    ∧ (stripMarkers (split_post_into_parts text n)).flatten = text := by
  have he : split_post_into_parts text n = [text] := by
    unfold split_post_into_parts
    rw [if_pos h]
  refine ⟨he, ?_⟩
  rw [he]
  simp [stripMarkers]

/-- Witness for C2 on the one-character text. -/
theorem split_round_trip_short_witness :
    (['a'] : List Char).length ≤ MULTIPOST_THRESHOLD
    ∧ split_post_into_parts ['a'] 1 = [['a']]
    ∧ (stripMarkers (split_post_into_parts ['a'] 1)).flatten = ['a'] :=
  ⟨by decide, split_round_trip_short ['a'] 1 (by decide)⟩

/-- Counterexample to C2 as stated: for the 1001-character exText split at
max_length 500, concatenating the marker-stripped parts loses the
two-newline paragraph separator, so the original text is not
reconstructed. -/
theorem split_loses_separators :
    (stripMarkers (split_post_into_parts exText 500)).flatten ≠ exText := by
  decide

/-! ### Claim C8: marker policy -/

/-- C8 amended.  When splitting occurs and more than one part results,
every part — including the first — is appended with its (i/total) marker;
when a single part results (or the text is at or below the threshold), no
marker is appended. -/
theorem marker_policy (text : List Char) (n : Nat) :
    (MULTIPOST_THRESHOLD < text.length → 1 < (rawParts text n).length →
      split_post_into_parts text n
        = numberParts (rawParts text n).length 1 (rawParts text n))
    ∧ (MULTIPOST_THRESHOLD < text.length → (rawParts text n).length ≤ 1 →
      split_post_into_parts text n = rawParts text n)
    ∧ (text.length ≤ MULTIPOST_THRESHOLD → split_post_into_parts text n = [text]) := by
  refine ⟨?_, ?_, ?_⟩
  · intro hlong h1
    show (if text.length ≤ MULTIPOST_THRESHOLD then [text]
      else if (rawParts text n).length > 1
        then numberParts (rawParts text n).length 1 (rawParts text n)
        else rawParts text n) = _
    rw [if_neg (by omega), if_pos h1]
  · intro hlong h1
    show (if text.length ≤ MULTIPOST_THRESHOLD then [text]
      else if (rawParts text n).length > 1
        then numberParts (rawParts text n).length 1 (rawParts text n)
        else rawParts text n) = _
    rw [if_neg (by omega), if_neg (by omega)]
  · intro h
    show (if text.length ≤ MULTIPOST_THRESHOLD then [text]
      else if (rawParts text n).length > 1
        then numberParts (rawParts text n).length 1 (rawParts text n)
        else rawParts text n) = _
    rw [if_pos h]

/-- Witness for C8: exText at max_length 500 yields two parts, each
marker-appended. -/
theorem marker_policy_witness :
    MULTIPOST_THRESHOLD < exText.length
    ∧ 1 < (rawParts exText 500).length
    ∧ split_post_into_parts exText 500
        = numberParts (rawParts exText 500).length 1 (rawParts exText 500) :=
  ⟨by decide, by decide, (marker_policy exText 500).1 (by decide) (by decide)⟩

/-- Counterexample to C8 as stated: on exText the first part does carry a
marker — it is the first raw part with the (1/2) marker appended. -/
theorem first_part_carries_marker :
    (split_post_into_parts exText 500).length = 2
    ∧ (split_post_into_parts exText 500).headI
        = List.replicate 500 'a' ++ marker 1 2 := by
  constructor <;> decide

/-! ### Pending-post store and publishing (services/post_service.py:
_pending_posts, store_pending_post, get_pending_post, remove_pending_post,
publish_pending_post) -/

/-- The fields of a stored post_data dict that publishing reads.  The
is_multipost and parts keys are absent unless the preview step stored them;
the defaults model dict.get with its default. -/
structure PostData where
  post_text : List Char
  image_bytes : Option (List Nat)
  is_multipost : Bool := false
  parts : List (List Char) := []
deriving DecidableEq

/-- Python truthiness of optional bytes: None and empty bytes are falsy. -/
def imgTruthy : Option (List Nat) → Bool
  | some b => !b.isEmpty
  | none => false

/-- The module-level _pending_posts dict, as an association list with
distinct keys maintained by the operations below. -/
abbrev PendingStore := List (Nat × PostData)

/-- Dict lookup. -/
def storeGet (st : PendingStore) (k : Nat) : Option PostData :=
  match st with
  | [] => none
  | (k', v) :: rest => if k' = k then some v else storeGet rest k

/-- Dict deletion of a key. -/
def storeErase : PendingStore → Nat → PendingStore
  | [], _ => []
  | e :: rest, k => if e.1 = k then storeErase rest k else e :: storeErase rest k

/-- Dict assignment: replace in place when the key exists, else append. -/
def storeInsert (st : PendingStore) (k : Nat) (v : PostData) : PendingStore :=
  match st with
  | [] => [(k, v)]
  | (k', v') :: rest =>
    if k' = k then (k', v) :: rest else (k', v') :: storeInsert rest k v

/-- get_pending_post. -/
def get_pending_post (pid : Nat) (st : PendingStore) : Option PostData :=
  storeGet st pid

/-- remove_pending_post: delete and report True when the id was present. -/
def remove_pending_post (pid : Nat) (st : PendingStore) : Bool × PendingStore :=
  if (storeGet st pid).isSome then (true, storeErase st pid) else (false, st)

/-- store_pending_post: the uuid4-derived fresh id is supplied by the
caller (the model takes it as a parameter). -/
def store_pending_post (pid : Nat) (d : PostData) (st : PendingStore) : PendingStore :=
  storeInsert st pid d

/-- One transport call made while publishing. -/
inductive Send
  | photo (caption : List Char)
  | message (text : List Char)
deriving DecidableEq

/-- The caption truncation of the multi-part first-photo branch. -/
def truncCaption (p : List Char) : List Char :=
  if 1024 < p.length then p.take 1020 ++ ['.', '.', '.'] else p

/-- The for-part loop of publish_pending_post: parts are delivered strictly
in order, the photo (with truncated caption) only for the first part when
image bytes are truthy; deliver says whether the k-th transport call
succeeds, and a raising call aborts the loop at once.  Returns whether all
calls succeeded and the calls attempted (the failing call included). -/
def deliverParts (deliver : Nat → Bool) (img : Bool) :
    Nat → List (List Char) → Bool × List Send
  | _, [] => (true, [])
  | k, part :: rest =>
    let s := if k = 0 ∧ img then Send.photo (truncCaption part) else Send.message part
    if deliver k then
      ((deliverParts deliver img (k + 1) rest).1,
       s :: (deliverParts deliver img (k + 1) rest).2)
    else (false, [s])

/-- publish_pending_post: unknown id fails without any transport call; a
stored post is delivered (multi-part when is_multipost and parts are set,
single message or photo otherwise), and the record is removed only after
every delivery call returned; any transport exception leaves the store
untouched and reports failure. -/
def publish_pending_post (deliver : Nat → Bool) (pid : Nat) (st : PendingStore) :
    Bool × PendingStore × List Send :=
  match storeGet st pid with
  | none => (false, st, [])
  | some pd =>
    if pd.is_multipost ∧ ¬ pd.parts.isEmpty then
      if (deliverParts deliver (imgTruthy pd.image_bytes) 0 pd.parts).1 then
        (true, storeErase st pid, (deliverParts deliver (imgTruthy pd.image_bytes) 0 pd.parts).2)
      else (false, st, (deliverParts deliver (imgTruthy pd.image_bytes) 0 pd.parts).2)
    else
      if deliver 0 then
        (true, storeErase st pid,
         [if imgTruthy pd.image_bytes then Send.photo pd.post_text
          else Send.message pd.post_text])
      else
        (false, st,
         [if imgTruthy pd.image_bytes then Send.photo pd.post_text
          else Send.message pd.post_text])

theorem storeGet_erase (st : PendingStore) (k : Nat) :
    storeGet (storeErase st k) k = none := by
  induction st with
  | nil => rfl
  | cons e rest ih =>
    unfold storeErase
    by_cases he : e.1 = k
    · rw [if_pos he]
      exact ih
    · rw [if_neg he]
      unfold storeGet
      rw [if_neg he]
      exact ih

theorem storeGet_insert_same (st : PendingStore) (k : Nat) (v : PostData) :
    storeGet (storeInsert st k v) k = some v := by
  induction st with
  | nil => simp [storeInsert, storeGet]
  | cons e rest ih =>
    unfold storeInsert
    by_cases he : e.1 = k
    · rw [if_pos he]
      unfold storeGet
      rw [if_pos he]
    · rw [if_neg he]
      unfold storeGet
      rw [if_neg he]
      exact ih

theorem storeGet_insert_other (st : PendingStore) (k j : Nat) (v : PostData)
    (hj : j ≠ k) : storeGet (storeInsert st k v) j = storeGet st j := by
  induction st with
  | nil =>
    show (if k = j then some v else storeGet [] j) = storeGet [] j
    rw [if_neg (fun h => hj h.symm)]
  | cons e rest ih =>
    unfold storeInsert
    by_cases he : e.1 = k
    · rw [if_pos he]
      unfold storeGet
      rw [if_neg (by rw [he]; exact fun h => hj h.symm), if_neg (by rw [he]; exact fun h => hj h.symm)]
    · rw [if_neg he]
      unfold storeGet
      by_cases hej : e.1 = j
      · rw [if_pos hej, if_pos hej]
      · rw [if_neg hej, if_neg hej]
        exact ih

theorem deliverParts_sends_ok (deliver : Nat → Bool) (img : Bool) :
    ∀ (parts : List (List Char)) (k0 : Nat),
    (deliverParts deliver img k0 parts).1 = true →
    ∀ j < (deliverParts deliver img k0 parts).2.length, deliver (k0 + j) = true := by
  intro parts
  induction parts with
  | nil => intro k0 _ j hj; simp [deliverParts] at hj
  | cons p rest ih =>
    intro k0 hok j hj
    by_cases hd : deliver k0 = true
    · simp only [deliverParts, hd, if_true] at hok hj
      cases j with
      | zero => simpa using hd
      | succ j' =>
        have hj' : j' < (deliverParts deliver img (k0 + 1) rest).2.length := by
          simpa using hj
        have := ih (k0 + 1) hok j' hj'
        rw [show k0 + (j' + 1) = k0 + 1 + j' by omega]
        exact this
    · have hd' : deliver k0 = false := by
        cases h : deliver k0
        · rfl
        · exact absurd h hd
      simp only [deliverParts, hd'] at hok
      simp at hok

/-! ### Claim C6: publish atomicity -/

/-- C6.  publish on an unknown id reports failure without a single
transport call; a successful publish removed the record (and every
transport call it made had succeeded); a failed publish leaves the store
— and in particular the stored pending post — exactly as it was. -/
theorem publish_atomicity (deliver : Nat → Bool) (pid : Nat) (st : PendingStore) :
    (storeGet st pid = none → publish_pending_post deliver pid st = (false, st, []))
    ∧ ((publish_pending_post deliver pid st).1 = true →
        (publish_pending_post deliver pid st).2.1 = storeErase st pid
        ∧ storeGet (publish_pending_post deliver pid st).2.1 pid = none
        ∧ ∀ j < (publish_pending_post deliver pid st).2.2.length, deliver j = true)
    ∧ ((publish_pending_post deliver pid st).1 = false →
        (publish_pending_post deliver pid st).2.1 = st
        ∧ storeGet (publish_pending_post deliver pid st).2.1 pid = storeGet st pid) := by
  rcases hg : storeGet st pid with _ | pd
  · refine ⟨fun _ => by simp [publish_pending_post, hg], ?_, ?_⟩
    · intro h
      simp [publish_pending_post, hg] at h
    · intro _
      simp [publish_pending_post, hg]
  · refine ⟨fun h => absurd h (by simp), ?_, ?_⟩
    · intro h
      by_cases hm : pd.is_multipost ∧ ¬ pd.parts.isEmpty
      · by_cases hok : (deliverParts deliver (imgTruthy pd.image_bytes) 0 pd.parts).1 = true
        · have he : publish_pending_post deliver pid st
              = (true, storeErase st pid,
                 (deliverParts deliver (imgTruthy pd.image_bytes) 0 pd.parts).2) := by
            simp only [publish_pending_post, hg]
            rw [if_pos hm, if_pos hok]
          rw [he]
          refine ⟨rfl, storeGet_erase st pid, ?_⟩
          intro j hj
          have := deliverParts_sends_ok deliver (imgTruthy pd.image_bytes) pd.parts 0 hok j hj
          simpa using this
        · have he : publish_pending_post deliver pid st
              = (false, st,
                 (deliverParts deliver (imgTruthy pd.image_bytes) 0 pd.parts).2) := by
            simp only [publish_pending_post, hg]
            rw [if_pos hm, if_neg hok]
          rw [he] at h
          exact Bool.noConfusion h
      · by_cases hd : deliver 0 = true
        · have he : publish_pending_post deliver pid st
              = (true, storeErase st pid,
                 [if imgTruthy pd.image_bytes then Send.photo pd.post_text
                  else Send.message pd.post_text]) := by
            simp only [publish_pending_post, hg]
            rw [if_neg hm, if_pos hd]
          rw [he]
          refine ⟨rfl, storeGet_erase st pid, ?_⟩
          intro j hj
          simp only [List.length_singleton] at hj
          interval_cases j
          exact hd
        · have hd' : deliver 0 = false := by
            cases hv : deliver 0
            · rfl
            · exact absurd hv hd
          have he : publish_pending_post deliver pid st
              = (false, st,
                 [if imgTruthy pd.image_bytes then Send.photo pd.post_text
                  else Send.message pd.post_text]) := by
            simp only [publish_pending_post, hg]
            rw [if_neg hm, if_neg (by simp [hd'])]
          rw [he] at h
          exact Bool.noConfusion h
    · intro h
      by_cases hm : pd.is_multipost ∧ ¬ pd.parts.isEmpty
      · by_cases hok : (deliverParts deliver (imgTruthy pd.image_bytes) 0 pd.parts).1 = true
        · have he : publish_pending_post deliver pid st
              = (true, storeErase st pid,
                 (deliverParts deliver (imgTruthy pd.image_bytes) 0 pd.parts).2) := by
            simp only [publish_pending_post, hg]
            rw [if_pos hm, if_pos hok]
          rw [he] at h
          exact Bool.noConfusion h
        · have he : publish_pending_post deliver pid st
              = (false, st,
                 (deliverParts deliver (imgTruthy pd.image_bytes) 0 pd.parts).2) := by
            simp only [publish_pending_post, hg]
            rw [if_pos hm, if_neg hok]
          rw [he]
          exact ⟨rfl, hg⟩
      · by_cases hd : deliver 0 = true
        · have he : publish_pending_post deliver pid st
              = (true, storeErase st pid,
                 [if imgTruthy pd.image_bytes then Send.photo pd.post_text
                  else Send.message pd.post_text]) := by
            simp only [publish_pending_post, hg]
            rw [if_neg hm, if_pos hd]
          rw [he] at h
          exact Bool.noConfusion h
        · have hd' : deliver 0 = false := by
            cases hv : deliver 0
            · rfl
            · exact absurd hv hd
          have he : publish_pending_post deliver pid st
              = (false, st,
                 [if imgTruthy pd.image_bytes then Send.photo pd.post_text
                  else Send.message pd.post_text]) := by
            simp only [publish_pending_post, hg]
            rw [if_neg hm, if_neg (by simp [hd'])]
          rw [he]
          exact ⟨rfl, hg⟩

/-- A stored single-part pending post without image under id 1. -/
def pdSingle : PostData :=
  { post_text := ['h', 'i'], image_bytes := none }

/-- Witness for C6: publishing id 1 from the one-record store with a
transport that always succeeds removes the record and leaves get with
none; publishing unknown id 2 fails without any call; publishing id 1
with a transport that raises leaves the record retrievable unchanged. -/
theorem publish_atomicity_witness :
    ((publish_pending_post (fun _ => true) 1 [(1, pdSingle)]).1 = true
      ∧ ((publish_pending_post (fun _ => true) 1 [(1, pdSingle)]).2.1
          = storeErase [(1, pdSingle)] 1
        ∧ storeGet (publish_pending_post (fun _ => true) 1 [(1, pdSingle)]).2.1 1 = none
        ∧ ∀ j < (publish_pending_post (fun _ => true) 1 [(1, pdSingle)]).2.2.length,
            (fun _ => true : Nat → Bool) j = true))
    ∧ (storeGet ([(1, pdSingle)] : PendingStore) 2 = none
      ∧ publish_pending_post (fun _ => true) 2 [(1, pdSingle)] = (false, [(1, pdSingle)], []))
    ∧ ((publish_pending_post (fun _ => false) 1 [(1, pdSingle)]).1 = false
      ∧ ((publish_pending_post (fun _ => false) 1 [(1, pdSingle)]).2.1 = [(1, pdSingle)]
        ∧ storeGet (publish_pending_post (fun _ => false) 1 [(1, pdSingle)]).2.1 1
            = storeGet [(1, pdSingle)] 1)) :=
  ⟨⟨rfl, (publish_atomicity (fun _ => true) 1 [(1, pdSingle)]).2.1 rfl⟩,
   ⟨rfl, (publish_atomicity (fun _ => true) 2 [(1, pdSingle)]).1 rfl⟩,
   ⟨rfl, (publish_atomicity (fun _ => false) 1 [(1, pdSingle)]).2.2 rfl⟩⟩

/-! ### Claim C9: regenerate and id reuse (handlers/callbacks.py:
cb_regenerate_new and cb_regenerate_post) -/

/-- cb_regenerate_new (callback data regenerate:{id}): generate a new
post; on success overwrite the stored record in place at the same id by
direct dict assignment (which inserts even if the id was absent); on
generation failure leave the store untouched. -/
def cb_regenerate_new (gen : Option PostData) (pid : Nat) (st : PendingStore) :
    PendingStore :=
  match gen with
  | some d => storeInsert st pid d
  | none => st

/-- cb_regenerate_post (callback data regenerate_post:{id}): remove the
old id first, then regenerate via post_to_channel in preview mode, which
stores the new post under a fresh id; the handler reports the new id only
when the preview delivery also succeeded, but the old record is gone even
when generation fails. -/
def cb_regenerate_post (gen : Option PostData) (previewOk : Bool) (newId oldId : Nat)
    (st : PendingStore) : PendingStore × Option Nat :=
  match gen with
  | none => ((remove_pending_post oldId st).2, none)
  | some d =>
    (storeInsert (remove_pending_post oldId st).2 newId d,
     if previewOk then some newId else none)

/-- C9 amended.  The regenerate:{id} handler replaces the record in place
at the same id: after success get(id) returns the new artifact — different
from the pre-regenerate value whenever the generated data differs — and no
record under any other id is created or removed.  The regenerate_post
handler, also cited by the claim, does not preserve the id: it removes the
old record and stores the regenerated post under a fresh id, after which
the old id is no longer retrievable. -/
theorem regenerate_id_behavior (d : PostData) (pid : Nat) (st : PendingStore) :
    (cb_regenerate_new (some d) pid st = storeInsert st pid d
      ∧ storeGet (cb_regenerate_new (some d) pid st) pid = some d
      ∧ (∀ j, j ≠ pid → storeGet (cb_regenerate_new (some d) pid st) j = storeGet st j)
      ∧ ∀ old, storeGet st pid = some old → d ≠ old →
          storeGet (cb_regenerate_new (some d) pid st) pid ≠ storeGet st pid)
    ∧ ∀ (previewOk : Bool) (newId oldId : Nat), newId ≠ oldId →
        storeGet (cb_regenerate_post (some d) previewOk newId oldId st).1 oldId = none
        ∧ storeGet (cb_regenerate_post (some d) previewOk newId oldId st).1 newId
            = some d := by
  constructor
  · refine ⟨rfl, storeGet_insert_same st pid d,
      fun j hj => storeGet_insert_other st pid j d hj, ?_⟩
    intro old hold hne
    rw [show cb_regenerate_new (some d) pid st = storeInsert st pid d from rfl,
        storeGet_insert_same, hold]
    intro hcontra
    exact hne (Option.some.inj hcontra)
  · intro previewOk newId oldId hne
    have h1 : storeGet (remove_pending_post oldId st).2 oldId = none := by
      unfold remove_pending_post
      by_cases hs : (storeGet st oldId).isSome
      · rw [if_pos hs]
        exact storeGet_erase st oldId
      · rw [if_neg hs]
        cases hv : storeGet st oldId with
        | none => rfl
        | some p => rw [hv] at hs; simp at hs
    constructor
    · show storeGet (storeInsert (remove_pending_post oldId st).2 newId d) oldId = none
      rw [storeGet_insert_other _ newId oldId d (fun h => hne h.symm)]
      exact h1
    · exact storeGet_insert_same _ newId d

/-- Two distinct post_data values for the C9 scenarios. -/
def pd0 : PostData := { post_text := ['x'], image_bytes := none }

/-- A regenerated post_data value different from pd0. -/
def pd1 : PostData := { post_text := ['y'], image_bytes := none }

/-- Witness for C9 at the one-record store: in-place replacement at id 1
by the regenerate:{id} handler, and old-id removal by regenerate_post. -/
theorem regenerate_id_behavior_witness :
    storeGet (cb_regenerate_new (some pd1) 1 [(1, pd0)]) 1 = some pd1
    ∧ pd1 ≠ pd0
    ∧ storeGet (cb_regenerate_new (some pd1) 1 [(1, pd0)]) 1 ≠ storeGet [(1, pd0)] 1
    ∧ (2 : Nat) ≠ 1
    ∧ storeGet (cb_regenerate_post (some pd1) true 2 1 [(1, pd0)]).1 1 = none :=
  ⟨(regenerate_id_behavior pd1 1 [(1, pd0)]).1.2.1,
   by decide,
   (regenerate_id_behavior pd1 1 [(1, pd0)]).1.2.2.2 pd0 rfl (by decide),
   by decide,
   ((regenerate_id_behavior pd1 1 [(1, pd0)]).2 true 2 1 (by decide)).1⟩

/-- Counterexample to C9 as stated: the regenerate_post handler — one of
the two regenerate paths the claim covers — reports a new id 2, removes
the record under the original id 1 (get now returns nothing there), and
creates a record under the different id 2. -/
theorem regenerate_post_discards_old_id :
    (cb_regenerate_post (some pd1) true 2 1 [(1, pd0)]).2 = some 2
    ∧ storeGet (cb_regenerate_post (some pd1) true 2 1 [(1, pd0)]).1 1 = none
    ∧ storeGet (cb_regenerate_post (some pd1) true 2 1 [(1, pd0)]).1 2 = some pd1 :=
  ⟨rfl, rfl, rfl⟩

end Utro
